import Mathlib

/-!
AudioTrackShared.h: the shared audio control block.

A shallow embedding of `include/private/media/AudioTrackShared.h`.

* Unsigned machine integers are natural numbers; a store through a
  `uintN_t` parameter or member reduces modulo `2^N`.
* `float` arguments are rational numbers.  Every finite `float` is a dyadic
  rational, and for `0 <= x <= 1` the product `x * 0x1000` is exact in binary
  floating point, so the rational product is the value the code computes.
* The control block is a record; a member function that writes the block
  becomes a function returning the new record, and a `const` member function
  becomes a function of the record.
-/

namespace android

/-! ## Constants (lines 29-44) -/

def MAX_STARTUP_TIMEOUT_MS : Nat := 3000
def MAX_RUN_TIMEOUT_MS : Nat := 1000
def WAIT_PERIOD_MS : Nat := 10
def RESTORE_TIMEOUT_MS : Nat := 5000

def CBLK_UNDERRUN : Nat := 0x01
def CBLK_FORCEREADY : Nat := 0x02
def CBLK_INVALID : Nat := 0x04
def CBLK_DISABLED : Nat := 0x08
def CBLK_RESTORING : Nat := 0x10
def CBLK_RESTORED : Nat := 0x20

/-- The six `CBLK_*` flag constants the header defines. -/
def definedFlags : List Nat :=
  [CBLK_UNDERRUN, CBLK_FORCEREADY, CBLK_INVALID, CBLK_DISABLED, CBLK_RESTORING, CBLK_RESTORED]

/-- Largest value of a `uint16_t`, the type of `bufferTimeoutMs` and `waitTimeMs`. -/
def UINT16_MAX : Nat := 65535

/-! ## The control block (lines 47-99) -/

/-- The data members of `struct audio_track_cblk_t`, in declaration order.
`lock` and `cv` stand for the int-sized words of the `Mutex` and `Condition`
members, `buffers` for the pointer value, `flags` for the 32-bit pattern of
the `int32_t` member. -/
structure audio_track_cblk_t where
  lock : Nat
  cv : Nat
  user : Nat
  server : Nat
  userBase : Nat
  serverBase : Nat
  buffers : Nat
  frameCount : Nat
  loopStart : Nat
  loopEnd : Nat
  loopCount : Int
  mVolumeLR : Nat
  sampleRate : Nat
  frameSize : Nat
  mName : Nat
  bufferTimeoutMs : Nat
  waitTimeMs : Nat
  mSendLevel : Nat
  flags : Nat
  deriving DecidableEq, Repr

namespace audio_track_cblk_t

/-! ## Packed status fields (lines 127-145) -/

/-- Conversion of a floating-point value to an integer type in C++: the
fractional part is discarded (truncation toward zero). -/
def truncToInt (x : ℚ) : Int :=
  if 0 ≤ x then ⌊x⌋ else ⌈x⌉

/-- The cast `uint16_t(x)` of a `float`.  C++ defines it only when the
truncated value fits the type; outside that range this model reduces the
truncated value modulo `2^16`. -/
def toUInt16 (x : ℚ) : Nat :=
  (truncToInt x % 65536).toNat

/-- `void setSendLevel(float sendLevel) { mSendLevel = uint16_t(sendLevel * 0x1000); }` -/
def setSendLevel (c : audio_track_cblk_t) (sendLevel : ℚ) : audio_track_cblk_t :=
  { c with mSendLevel := toUInt16 (sendLevel * 0x1000) }

/-- `uint16_t getSendLevel_U4_12() const { return mSendLevel; }` -/
def getSendLevel_U4_12 (c : audio_track_cblk_t) : Nat :=
  c.mSendLevel

/-- `void setVolumeLR(uint32_t volumeLR) { mVolumeLR = volumeLR; }` -/
def setVolumeLR (c : audio_track_cblk_t) (volumeLR : Nat) : audio_track_cblk_t :=
  { c with mVolumeLR := volumeLR % 4294967296 }

/-- `uint32_t getVolumeLR() const { return mVolumeLR; }` -/
def getVolumeLR (c : audio_track_cblk_t) : Nat :=
  c.mVolumeLR

end audio_track_cblk_t

/-- Left channel gain of a packed pair: bits `[0:15]` (line 73). -/
def volumeLeft (volumeLR : Nat) : Nat :=
  volumeLR &&& 0xFFFF

/-- Right channel gain of a packed pair: bits `[16:31]` (line 73). -/
def volumeRight (volumeLR : Nat) : Nat :=
  volumeLR >>> 16

/-- Decoding of a U4.12 value: `0x1000` means `1.0`. -/
def decodeU4_12 (encoded : Nat) : ℚ :=
  (encoded : ℚ) / 4096

/-- A read of the packed volume as a step on the block: the value read and
the block afterwards.  `getVolumeLR` is `const`, so the block is returned as
it was. -/
def readVolumeLR (c : audio_track_cblk_t) : Nat × audio_track_cblk_t :=
  (c.getVolumeLR, c)

/-- The values returned by `n` consecutive `getVolumeLR()` calls, and the
block after the last of them. -/
def readVolumeLRTimes : Nat → audio_track_cblk_t → List Nat × audio_track_cblk_t
  | 0, c => ([], c)
  | n + 1, c =>
    let r := readVolumeLR c
    let rest := readVolumeLRTimes n r.2
    (r.1 :: rest.1, rest.2)

/-! ## Position and ring accounting (lines 107-120, 147-152)

The header declares `stepUser`, `stepServer`, `framesAvailable`,
`framesAvailable_l` and `framesReady` without a body; only the inline
`...In` / `...Out` wrappers are defined in it.  The bodies below follow the
design document (sections 4.1 and 7), the wrappers follow the header.  A count
is an `Option`: `none` is the fatal position inconsistency, a count computed
outside `[0, frameCount]`. -/

/-- Addition of two `uint32_t` values: the sum modulo `2^32`. -/
def add32 (a b : Nat) : Nat :=
  (a + b) % 4294967296

/-- Subtraction of two `uint32_t` values: the difference modulo `2^32`. -/
def sub32 (a b : Nat) : Nat :=
  (a % 4294967296 + (4294967296 - b % 4294967296)) % 4294967296

namespace audio_track_cblk_t

/-- Modelled from the spec: `ringOffset(counter, base) = (counter − base) mod
frameCount`, the slot index of a position counter; no function of the header
computes it. -/
def ringOffset (c : audio_track_cblk_t) (counter base : Nat) : Nat :=
  sub32 counter base % c.frameCount

/-- Modelled from the spec: the unclamped value of `framesReady(bool isOut)`,
whose body is missing from the header.  The consumer's ready frames are
`user − server` on an output channel and `server − user` on an input channel,
as an unsigned difference. -/
def framesReadyRaw (c : audio_track_cblk_t) (isOut : Bool) : Nat :=
  if isOut then sub32 c.user c.server else sub32 c.server c.user

/-- Modelled from the spec: the unclamped value of `framesAvailable(bool
isOut)`, whose body is missing from the header.  The producer's free space is
`frameCount − (user − server)` on an output channel, with the roles of the
two counters swapped on an input channel. -/
def framesAvailableRaw (c : audio_track_cblk_t) (isOut : Bool) : Nat :=
  sub32 c.frameCount (c.framesReadyRaw isOut)

/-- Modelled from the spec: what a count computation reports.  A count within
`[0, frameCount]` is returned; "a value outside that range (from counter
corruption) is treated as a fatal inconsistency" (sections 4.1 and 7), which
is the result `none`. -/
def checkedCount (c : audio_track_cblk_t) (count : Nat) : Option Nat :=
  if count ≤ c.frameCount then some count else none

/-- Modelled from the spec: `framesAvailable_l(bool isOut)`, declared on line
151 without a body: the producer's free space, or `none` on a position
inconsistency. -/
def framesAvailable_l (c : audio_track_cblk_t) (isOut : Bool) : Option Nat :=
  c.checkedCount (c.framesAvailableRaw isOut)

/-- `uint32_t framesAvailableIn_l() { return framesAvailable_l(false); }` -/
def framesAvailableIn_l (c : audio_track_cblk_t) : Option Nat := c.framesAvailable_l false

/-- `uint32_t framesAvailableOut_l() { return framesAvailable_l(true); }` -/
def framesAvailableOut_l (c : audio_track_cblk_t) : Option Nat := c.framesAvailable_l true

/-- Modelled from the spec: the loop count after a crossing of `loopEnd`,
"decrement `loopCount` if `loopCount > 0`" (a negative count is infinite). -/
def loopCountAfterWrap (loopCount : Int) : Int :=
  if 0 < loopCount then loopCount - 1 else loopCount

/-- Modelled from the spec: the effect on the block of `stepUser(uint32_t
frameCount, bool isOut)`, declared on line 149 without a body.  A request of
zero frames is a no-op.  Otherwise `user` increases by the requested frames;
when looping is enabled (`loopCount ≠ 0`) and the ring offset of the new
counter reaches `loopEnd`, `userBase` is moved so that the ring offset becomes
`loopStart`, and the loop count is decremented.  The spec gives the same
effect for both directions.  The return value is left out: the spec only says
"frames actually advanced". -/
def stepUser (c : audio_track_cblk_t) (frameCount : Nat) (_isOut : Bool) :
    audio_track_cblk_t :=
  if frameCount = 0 then c
  else
    let u := add32 c.user frameCount
    if c.loopCount ≠ 0 ∧ c.loopEnd ≤ c.ringOffset u c.userBase then
      { c with user := u, userBase := sub32 u c.loopStart,
               loopCount := loopCountAfterWrap c.loopCount }
    else
      { c with user := u }

/-- Modelled from the spec: the effect on the block of `stepServer(uint32_t
frameCount, bool isOut)`, declared on line 112 without a body: the same
advance as `stepUser`, on `server` and `serverBase`.  The `bool` result is
left out: the spec does not describe it. -/
def stepServer (c : audio_track_cblk_t) (frameCount : Nat) (_isOut : Bool) :
    audio_track_cblk_t :=
  if frameCount = 0 then c
  else
    let s := add32 c.server frameCount
    if c.loopCount ≠ 0 ∧ c.loopEnd ≤ c.ringOffset s c.serverBase then
      { c with server := s, serverBase := sub32 s c.loopStart,
               loopCount := loopCountAfterWrap c.loopCount }
    else
      { c with server := s }

/-- `uint32_t stepUserIn(uint32_t frameCount) { return stepUser(frameCount, false); }` -/
def stepUserIn (c : audio_track_cblk_t) (frameCount : Nat) : audio_track_cblk_t :=
  c.stepUser frameCount false

/-- `uint32_t stepUserOut(uint32_t frameCount) { return stepUser(frameCount, true); }` -/
def stepUserOut (c : audio_track_cblk_t) (frameCount : Nat) : audio_track_cblk_t :=
  c.stepUser frameCount true

end audio_track_cblk_t

/-- One advance call on the control block, by the client (`stepUserIn`,
`stepUserOut`) or by the server (`stepServer`). -/
inductive Advance where
  | stepUserIn (frameCount : Nat)
  | stepUserOut (frameCount : Nat)
  | stepServer (frameCount : Nat) (isOut : Bool)
  deriving DecidableEq, Repr

namespace Advance

/-- The direction of the channel the call is made for: `true` for output. -/
def isOut : Advance → Bool
  | stepUserIn _ => false
  | stepUserOut _ => true
  | stepServer _ d => d

/-- The block after the call. -/
def apply (c : audio_track_cblk_t) : Advance → audio_track_cblk_t
  | stepUserIn n => c.stepUserIn n
  | stepUserOut n => c.stepUserOut n
  | stepServer n d => c.stepServer n d

end Advance

/-- A concrete control block used in the examples: an output track of 100
frames with 30 frames written and 10 consumed. -/
def sampleCblk : audio_track_cblk_t :=
  { lock := 0, cv := 0, user := 30, server := 10, userBase := 0, serverBase := 0,
    buffers := 64, frameCount := 100, loopStart := 10, loopEnd := 50, loopCount := 2,
    mVolumeLR := 0x10001000, sampleRate := 44100, frameSize := 4, mName := 1,
    bufferTimeoutMs := 3000, waitTimeMs := 0, mSendLevel := 0, flags := 0 }

theorem or_eq_zero_right (x a : Nat) (h : x ||| a = 0) : a = 0 := by
  apply Nat.eq_of_testBit_eq
  intro i
  have hbit := congrArg (fun n => Nat.testBit n i) h
  simp only [Nat.testBit_or, Nat.zero_testBit, Bool.or_eq_false_iff] at hbit
  simp [hbit.2]

theorem volumeLeft_eq_mod (v : Nat) : volumeLeft v = v % 65536 :=
  Nat.and_pow_two_sub_one_eq_mod v 16

theorem volumeRight_eq_div (v : Nat) : volumeRight v = v / 65536 := by
  simp [volumeRight, Nat.shiftRight_eq_div_pow]

theorem definedFlags_ne_zero (a : Nat) (ha : a ∈ definedFlags) : a ≠ 0 := by
  simp only [definedFlags, CBLK_UNDERRUN, CBLK_FORCEREADY, CBLK_INVALID, CBLK_DISABLED,
    CBLK_RESTORING, CBLK_RESTORED, List.mem_cons, List.mem_singleton, List.mem_nil_iff,
    or_false] at ha
  omega

theorem definedFlags_disjoint (a b : Nat) (ha : a ∈ definedFlags) (hb : b ∈ definedFlags)
    (hab : a ≠ b) : a &&& b = 0 := by
  simp only [definedFlags, CBLK_UNDERRUN, CBLK_FORCEREADY, CBLK_INVALID, CBLK_DISABLED,
    CBLK_RESTORING, CBLK_RESTORED, List.mem_cons, List.mem_singleton, List.mem_nil_iff,
    or_false] at ha hb
  rcases ha with rfl | rfl | rfl | rfl | rfl | rfl <;>
    rcases hb with rfl | rfl | rfl | rfl | rfl | rfl <;>
    first
      | exact absurd rfl hab
      | decide

theorem toUInt16_eq_floor (x : ℚ) (h0 : 0 ≤ x) (h1 : x ≤ 4096) :
    (audio_track_cblk_t.toUInt16 x : ℤ) = ⌊x⌋ := by
  have hfl0 : 0 ≤ ⌊x⌋ := Int.floor_nonneg.mpr h0
  have hfl1 : ⌊x⌋ ≤ 4096 := by
    have hmono : ⌊x⌋ ≤ ⌊(4096 : ℚ)⌋ := Int.floor_le_floor h1
    simpa using hmono
  unfold audio_track_cblk_t.toUInt16 audio_track_cblk_t.truncToInt
  rw [if_pos h0]
  omega

theorem sendLevel_eq_floor (c : audio_track_cblk_t) (v : ℚ) (h0 : 0 ≤ v) (h1 : v ≤ 1) :
    ((c.setSendLevel v).getSendLevel_U4_12 : ℤ) = ⌊v * 4096⌋ := by
  have hx0 : (0 : ℚ) ≤ v * 4096 := by linarith
  have hx1 : v * 4096 ≤ 4096 := by linarith
  simpa [audio_track_cblk_t.setSendLevel, audio_track_cblk_t.getSendLevel_U4_12] using
    toUInt16_eq_floor (v * 4096) hx0 hx1

theorem sendLevel_bracket (c : audio_track_cblk_t) (v : ℚ) (h0 : 0 ≤ v) (h1 : v ≤ 1) :
    ((c.setSendLevel v).getSendLevel_U4_12 : ℚ) ≤ v * 4096 ∧
      v * 4096 < ((c.setSendLevel v).getSendLevel_U4_12 : ℚ) + 1 := by
  have hfl := sendLevel_eq_floor c v h0 h1
  have hcast : (((c.setSendLevel v).getSendLevel_U4_12 : ℤ) : ℚ) = ((⌊v * 4096⌋ : ℤ) : ℚ) := by
    rw [hfl]
  rw [Int.cast_natCast] at hcast
  rw [hcast]
  exact ⟨Int.floor_le _, Int.lt_floor_add_one _⟩

/-- C1: for every 32-bit value `v` and every control block, `setVolumeLR(v)`
followed by `getVolumeLR()` returns exactly `v`, so the left gain (bits
0..15) and the right gain (bits 16..31) both come back unchanged. -/
theorem getVolumeLR_setVolumeLR (c : audio_track_cblk_t) (v : Nat) (hv : v < 4294967296) :
    (c.setVolumeLR v).getVolumeLR = v ∧
      volumeLeft (c.setVolumeLR v).getVolumeLR = volumeLeft v ∧
      volumeRight (c.setVolumeLR v).getVolumeLR = volumeRight v := by
  have hget : (c.setVolumeLR v).getVolumeLR = v := by
    simp only [audio_track_cblk_t.setVolumeLR, audio_track_cblk_t.getVolumeLR]
    exact Nat.mod_eq_of_lt hv
  rw [hget]
  exact ⟨rfl, rfl, rfl⟩

theorem getVolumeLR_setVolumeLR_witness :
    (0x08000123 : Nat) < 4294967296 ∧
      (sampleCblk.setVolumeLR 0x08000123).getVolumeLR = 0x08000123 ∧
      volumeLeft (sampleCblk.setVolumeLR 0x08000123).getVolumeLR = volumeLeft 0x08000123 ∧
      volumeRight (sampleCblk.setVolumeLR 0x08000123).getVolumeLR = volumeRight 0x08000123 :=
  ⟨by decide, getVolumeLR_setVolumeLR sampleCblk 0x08000123 (by decide)⟩

/-- C6: `getVolumeLR()` leaves every field of the block unchanged, so any
number of consecutive reads with no write in between all return the same
32-bit pair, the one stored in the block. -/
theorem readVolumeLR_idempotent (c : audio_track_cblk_t) (n : Nat) :
    (readVolumeLR c).2 = c ∧
      readVolumeLRTimes n c = (List.replicate n c.getVolumeLR, c) := by
  refine ⟨rfl, ?_⟩
  induction n with
  | zero => rfl
  | succ k ih =>
    simp only [readVolumeLRTimes, readVolumeLR, ih, List.replicate_succ]

/-- C9: `setVolumeLR` changes no field other than `mVolumeLR` and
`setSendLevel` changes no field other than `mSendLevel`: putting the old
value of that one field back gives the old block.  In particular each getter
is unaffected by the other setter, and positions, loop fields and flags are
untouched. -/
theorem packed_setters_frame (c : audio_track_cblk_t) (v : Nat) (s : ℚ) :
    ({ c.setVolumeLR v with mVolumeLR := c.mVolumeLR } = c ∧
      { c.setSendLevel s with mSendLevel := c.mSendLevel } = c) ∧
    ((c.setVolumeLR v).getSendLevel_U4_12 = c.getSendLevel_U4_12 ∧
      (c.setSendLevel s).getVolumeLR = c.getVolumeLR) ∧
    ((c.setVolumeLR v).user = c.user ∧ (c.setVolumeLR v).server = c.server ∧
      (c.setVolumeLR v).userBase = c.userBase ∧ (c.setVolumeLR v).serverBase = c.serverBase ∧
      (c.setVolumeLR v).loopStart = c.loopStart ∧ (c.setVolumeLR v).loopEnd = c.loopEnd ∧
      (c.setVolumeLR v).loopCount = c.loopCount ∧ (c.setVolumeLR v).flags = c.flags) ∧
    ((c.setSendLevel s).user = c.user ∧ (c.setSendLevel s).server = c.server ∧
      (c.setSendLevel s).userBase = c.userBase ∧ (c.setSendLevel s).serverBase = c.serverBase ∧
      (c.setSendLevel s).loopStart = c.loopStart ∧ (c.setSendLevel s).loopEnd = c.loopEnd ∧
      (c.setSendLevel s).loopCount = c.loopCount ∧ (c.setSendLevel s).flags = c.flags) := by
  cases c
  simp [audio_track_cblk_t.setVolumeLR, audio_track_cblk_t.setSendLevel,
    audio_track_cblk_t.getSendLevel_U4_12, audio_track_cblk_t.getVolumeLR]

/-- C10 does not hold as stated: `0x0000FFFF` is within the documented limit
`0 <= volumeLR <= 0x10001000`, yet after `setVolumeLR(0x0000FFFF)` the left
gain read back is `0xFFFF`, which exceeds `0x1000`. -/
theorem volumeLR_limit_left_exceeds :
    (0x0000FFFF : Nat) ≤ 0x10001000 ∧
      volumeLeft (sampleCblk.setVolumeLR 0x0000FFFF).getVolumeLR = 0xFFFF ∧
      ¬ (volumeLeft (sampleCblk.setVolumeLR 0x0000FFFF).getVolumeLR ≤ 0x1000 ∧
          volumeRight (sampleCblk.setVolumeLR 0x0000FFFF).getVolumeLR ≤ 0x1000) := by
  have hget : (sampleCblk.setVolumeLR 0x0000FFFF).getVolumeLR = 0xFFFF := by
    simp [audio_track_cblk_t.setVolumeLR, audio_track_cblk_t.getVolumeLR]
  rw [hget, volumeLeft_eq_mod]
  refine ⟨by decide, by decide, ?_⟩
  intro h
  exact absurd h.1 (by decide)

/-- C10, amended: for every `volumeLR <= 0x10001000`, after
`setVolumeLR(volumeLR)` the value read back has a right gain of at most
`0x1000` and a left gain of at most `0xFFFF`; the left gain is at most
`0x1000` when the right gain equals `0x1000`. -/
theorem volumeLR_limit_bounds (c : audio_track_cblk_t) (volumeLR : Nat)
    (hlimit : volumeLR ≤ 0x10001000) :
    volumeRight (c.setVolumeLR volumeLR).getVolumeLR ≤ 0x1000 ∧
      volumeLeft (c.setVolumeLR volumeLR).getVolumeLR ≤ 0xFFFF ∧
      (volumeRight (c.setVolumeLR volumeLR).getVolumeLR = 0x1000 →
        volumeLeft (c.setVolumeLR volumeLR).getVolumeLR ≤ 0x1000) := by
  have hget : (c.setVolumeLR volumeLR).getVolumeLR = volumeLR := by
    simp only [audio_track_cblk_t.setVolumeLR, audio_track_cblk_t.getVolumeLR]
    omega
  rw [hget, volumeLeft_eq_mod, volumeRight_eq_div]
  omega

theorem volumeLR_limit_bounds_witness :
    (0x10000800 : Nat) ≤ 0x10001000 ∧
      volumeRight (sampleCblk.setVolumeLR 0x10000800).getVolumeLR ≤ 0x1000 ∧
      volumeLeft (sampleCblk.setVolumeLR 0x10000800).getVolumeLR ≤ 0xFFFF ∧
      (volumeRight (sampleCblk.setVolumeLR 0x10000800).getVolumeLR = 0x1000 →
        volumeLeft (sampleCblk.setVolumeLR 0x10000800).getVolumeLR ≤ 0x1000) :=
  ⟨by decide, volumeLR_limit_bounds sampleCblk 0x10000800 (by decide)⟩

/-! ## Send level -/

/-- C2: for every gain `v` with `0 <= v <= 1`, encoding it with
`setSendLevel(v)`, reading it back with `getSendLevel_U4_12()` and decoding
by dividing by 4096 yields `d` with `|d - v| <= 1/4096`. -/
theorem sendLevel_roundtrip (c : audio_track_cblk_t) (v : ℚ) (h0 : 0 ≤ v) (h1 : v ≤ 1) :
    |decodeU4_12 (c.setSendLevel v).getSendLevel_U4_12 - v| ≤ 1 / 4096 := by
  obtain ⟨hlo, hhi⟩ := sendLevel_bracket c v h0 h1
  unfold decodeU4_12
  rw [abs_le]
  constructor
  · rw [div_eq_mul_inv]
    linarith
  · rw [div_eq_mul_inv]
    linarith

theorem sendLevel_roundtrip_witness :
    (0 : ℚ) ≤ 3 / 8192 ∧ (3 / 8192 : ℚ) ≤ 1 ∧
      |decodeU4_12 (sampleCblk.setSendLevel (3 / 8192)).getSendLevel_U4_12 - 3 / 8192|
        ≤ 1 / 4096 :=
  ⟨by norm_num, by norm_num, sendLevel_roundtrip sampleCblk (3 / 8192) (by norm_num) (by norm_num)⟩

/-- C3 does not hold as stated: for the gain `3/16384` (a `float` value within
`[0, 1]`) the product with 4096 is `3/4`, whose nearest integer is 1, while
`setSendLevel` stores 0. -/
theorem sendLevel_not_rounded :
    (0 : ℚ) ≤ 3 / 16384 ∧ (3 / 16384 : ℚ) ≤ 1 ∧
      (sampleCblk.setSendLevel (3 / 16384)).getSendLevel_U4_12 = 0 ∧
      round ((3 / 16384 : ℚ) * 4096) = 1 ∧
      ((sampleCblk.setSendLevel (3 / 16384)).getSendLevel_U4_12 : ℤ)
        ≠ round ((3 / 16384 : ℚ) * 4096) := by
  have hcode : (sampleCblk.setSendLevel (3 / 16384)).getSendLevel_U4_12 = 0 := by
    have hfl := sendLevel_eq_floor sampleCblk (3 / 16384) (by norm_num) (by norm_num)
    have hzero : ⌊(3 / 16384 : ℚ) * 4096⌋ = 0 := by
      rw [Int.floor_eq_iff]
      norm_num
    rw [hzero] at hfl
    exact_mod_cast hfl
  have hround : round ((3 / 16384 : ℚ) * 4096) = 1 := by
    rw [round_eq, Int.floor_eq_iff]
    norm_num
  refine ⟨by norm_num, by norm_num, hcode, hround, ?_⟩
  rw [hcode, hround]
  decide

/-- C3, amended: for every gain `v` with `0 <= v <= 1`, the U4.12 value stored
by `setSendLevel(v)` and returned by `getSendLevel_U4_12()` equals `v * 4096`
truncated toward zero: it is the integer `n` with `n <= v * 4096 < n + 1`. -/
theorem sendLevel_truncated (c : audio_track_cblk_t) (v : ℚ) (h0 : 0 ≤ v) (h1 : v ≤ 1) :
    ((c.setSendLevel v).getSendLevel_U4_12 : ℤ) = ⌊v * 4096⌋ ∧
      ((c.setSendLevel v).getSendLevel_U4_12 : ℚ) ≤ v * 4096 ∧
      v * 4096 < ((c.setSendLevel v).getSendLevel_U4_12 : ℚ) + 1 :=
  ⟨sendLevel_eq_floor c v h0 h1, sendLevel_bracket c v h0 h1⟩

theorem sendLevel_truncated_witness :
    (0 : ℚ) ≤ 5 / 8 ∧ (5 / 8 : ℚ) ≤ 1 ∧
      ((sampleCblk.setSendLevel (5 / 8)).getSendLevel_U4_12 : ℤ) = ⌊(5 / 8 : ℚ) * 4096⌋ ∧
      ((sampleCblk.setSendLevel (5 / 8)).getSendLevel_U4_12 : ℚ) ≤ 5 / 8 * 4096 ∧
      (5 / 8 : ℚ) * 4096 < ((sampleCblk.setSendLevel (5 / 8)).getSendLevel_U4_12 : ℚ) + 1 :=
  ⟨by norm_num, by norm_num, sendLevel_truncated sampleCblk (5 / 8) (by norm_num) (by norm_num)⟩

/-- C4: for every gain `v` with `0 <= v <= 1`, `getSendLevel_U4_12()` after
`setSendLevel(v)` returns at most `0x1000`, and returns `0x1000` exactly when
`v = 1`. -/
theorem sendLevel_le_unity (c : audio_track_cblk_t) (v : ℚ) (h0 : 0 ≤ v) (h1 : v ≤ 1) :
    (c.setSendLevel v).getSendLevel_U4_12 ≤ 0x1000 ∧
      ((c.setSendLevel v).getSendLevel_U4_12 = 0x1000 ↔ v = 1) := by
  obtain ⟨hlo, hhi⟩ := sendLevel_bracket c v h0 h1
  have hle : (c.setSendLevel v).getSendLevel_U4_12 ≤ 0x1000 := by
    have hq : ((c.setSendLevel v).getSendLevel_U4_12 : ℚ) ≤ 4096 := by linarith
    exact_mod_cast hq
  refine ⟨hle, ?_, ?_⟩
  · intro heq
    rw [heq] at hlo
    have hq : (4096 : ℚ) ≤ v * 4096 := by exact_mod_cast hlo
    linarith
  · intro hv
    subst hv
    have hq : (4095 : ℚ) < ((c.setSendLevel 1).getSendLevel_U4_12 : ℚ) := by linarith
    have hn : 4095 < (c.setSendLevel 1).getSendLevel_U4_12 := by exact_mod_cast hq
    omega

theorem sendLevel_le_unity_witness :
    (0 : ℚ) ≤ 1 ∧ (1 : ℚ) ≤ 1 ∧
      (sampleCblk.setSendLevel 1).getSendLevel_U4_12 ≤ 0x1000 ∧
      ((sampleCblk.setSendLevel 1).getSendLevel_U4_12 = 0x1000 ↔ (1 : ℚ) = 1) :=
  ⟨by norm_num, by norm_num, sendLevel_le_unity sampleCblk 1 (by norm_num) (by norm_num)⟩

/-! ## Flags and timeouts -/

/-- C5: the six defined flag constants are independent bits: for every flags
word `f` and every two distinct defined flags `a` and `b`, `(f | a) & a` is
non-zero and `(f | a) & b` equals `f & b`. -/
theorem flags_independent (f a b : Nat) (ha : a ∈ definedFlags) (hb : b ∈ definedFlags)
    (hab : a ≠ b) :
    (f ||| a) &&& a ≠ 0 ∧ (f ||| a) &&& b = f &&& b := by
  constructor
  · rw [Nat.and_distrib_right, Nat.and_self]
    intro h
    exact definedFlags_ne_zero a ha (or_eq_zero_right _ _ h)
  · rw [Nat.and_distrib_right, definedFlags_disjoint a b ha hb hab, Nat.or_zero]

theorem flags_independent_witness :
    CBLK_INVALID ∈ definedFlags ∧ CBLK_UNDERRUN ∈ definedFlags ∧ CBLK_INVALID ≠ CBLK_UNDERRUN ∧
      (0x29 ||| CBLK_INVALID) &&& CBLK_INVALID ≠ 0 ∧
      (0x29 ||| CBLK_INVALID) &&& CBLK_UNDERRUN = 0x29 &&& CBLK_UNDERRUN :=
  ⟨by decide, by decide, by decide,
    flags_independent 0x29 CBLK_INVALID CBLK_UNDERRUN (by decide) (by decide) (by decide)⟩

/-- C7: the stall-detection budgets are ordered and representable:
`0 < MAX_RUN_TIMEOUT_MS < MAX_STARTUP_TIMEOUT_MS <= 65535`, and storing either
budget in a 16-bit field does not truncate it. -/
theorem timeout_budgets_ordered :
    0 < MAX_RUN_TIMEOUT_MS ∧ MAX_RUN_TIMEOUT_MS < MAX_STARTUP_TIMEOUT_MS ∧
      MAX_STARTUP_TIMEOUT_MS ≤ UINT16_MAX ∧ UINT16_MAX = 65535 ∧
      MAX_RUN_TIMEOUT_MS % 65536 = MAX_RUN_TIMEOUT_MS ∧
      MAX_STARTUP_TIMEOUT_MS % 65536 = MAX_STARTUP_TIMEOUT_MS := by
  decide

/-! ## Position and ring accounting -/

end android
